import Mathlib

/-
  Verification development for the deep_brain backend task engine.

  Shallow embedding of:
    - src/backend/models/task.py        (TaskStatus, TaskType, TaskBase/TaskUpdate/Task)
    - src/backend/services/task_service.py (TaskService: create/get/update/list,
      _execute_task and its work functions, stop/restart/delete)
    - src/backend/services/llm_service.py  (LLMService.expand_node and
      _create_expansion_nodes; the outbound LLM call is modelled as an external
      oracle of type Except String ExpansionData)

  Modelling conventions:
    - Mongo ObjectIds and user ids are Nats; timestamps (datetime.utcnow()) are a
      Nat clock that advances by one at every persisted write.
    - Node positions (floating-point geometry) and CSS style dictionaries are not
      represented: no claim concerns them and floats are outside the embedding.
    - uuid4() node-id generation is modelled by a deterministic counter supply
      (freshId), preserving the call order of the source.
    - The asyncio scheduler is modelled by a small-step relation: each persisted
      update of TaskService._execute_task is one step of a registered execution
      entry; stop_task's cancellation branch runs the executor's
      asyncio.CancelledError handler and the finally-block deregistration.
-/

namespace DeepBrain

/-- models/task.py TaskStatus. -/
inductive TaskStatus where
  | pending
  | running
  | completed
  | failed
  | stopped
  | restarting
deriving DecidableEq, Repr

/-- models/task.py TaskType. -/
inductive TaskType where
  | generate_mindmap
  | expand_node
deriving DecidableEq, Repr

/-- models/mindmap.py NodeExpansionRequest (node_id, expansion_topic, context,
max_children with default 15). -/
structure NodeExpansionRequest where
  node_id : String
  expansion_topic : String
  context : Option String := none
  max_children : Nat := 15
deriving DecidableEq, Repr

/-- models/mindmap.py GenerateMindMapRequest. -/
structure GenerateMindMapRequest where
  topic : String
  description : Option String := none
  depth : Nat := 3
  style : String := "comprehensive"
deriving DecidableEq, Repr

/-- A caller-supplied current node (an element of `current_nodes` in an
expand_node task): the fields the service reads are `id` and the
`data.label` / `data.content` / `data.level` entries. -/
structure MMNode where
  id : String
  label : String := ""
  content : String := ""
  level : Nat := 0
deriving DecidableEq, Repr

/-- A second-level child in the parsed LLM expansion JSON. -/
structure GrandchildSpec where
  label : Option String := none
  content : Option String := none
  description : Option String := none
deriving DecidableEq, Repr

/-- A first-level child in the parsed LLM expansion JSON. -/
structure ChildSpec where
  label : Option String := none
  content : Option String := none
  description : Option String := none
  children : List GrandchildSpec := []
deriving DecidableEq, Repr

/-- The parsed LLM expansion payload: {"children": [...]}. -/
structure ExpansionData where
  children : List ChildSpec
deriving DecidableEq, Repr

/-- A React-Flow node produced by llm_service (id, data.label, data.content,
data.description, data.level, data.parent_id, data.isRoot; position/style
geometry is not represented). -/
structure RFNode where
  id : String
  label : String
  content : String
  description : String
  level : Nat
  parent_id : Option String
  isRoot : Bool
deriving DecidableEq, Repr

/-- A React-Flow edge produced by llm_service (id, source, target). -/
structure RFEdge where
  id : String
  source : String
  target : String
deriving DecidableEq, Repr

/-- Deterministic stand-in for uuid.uuid4(), indexed by call order. -/
def freshId (n : Nat) : String := "uuid-" ++ toString n

/-- Inner loop of LLMService._create_expansion_nodes over the second-level
children of child number `i`: each grandchild `j` gets a fresh id, a node
(level parentLevel+2, parent = the first-level child) and an edge. -/
def addGrandchildren (childId : String) (parentLevel i : Nat) :
    List GrandchildSpec → Nat → Nat → (List RFNode × List RFEdge × Nat)
  | [], _, ctr => ([], [], ctr)
  | g :: gs, j, ctr =>
    let gid := freshId ctr
    let node : RFNode :=
      { id := gid
        label := g.label.getD ("子节点" ++ toString (i + 1) ++ "-" ++ toString (j + 1))
        content := g.content.getD ""
        description := g.description.getD (g.content.getD "")
        level := parentLevel + 2
        parent_id := some childId
        isRoot := false }
    let edge : RFEdge :=
      { id := "edge-" ++ childId ++ "-" ++ gid, source := childId, target := gid }
    let (ns, es, ctr') := addGrandchildren childId parentLevel i gs (j + 1) (ctr + 1)
    (node :: ns, edge :: es, ctr')

/-- Outer loop of LLMService._create_expansion_nodes over the first-level
children: child `i` gets a fresh id, a node (level parentLevel+1) and an edge,
followed by its grandchildren, then the remaining children. -/
def addChildren (parentId : String) (parentLevel : Nat) :
    List ChildSpec → Nat → Nat → (List RFNode × List RFEdge × Nat)
  | [], _, ctr => ([], [], ctr)
  | c :: cs, i, ctr =>
    let cid := freshId ctr
    let node : RFNode :=
      { id := cid
        label := c.label.getD ("新节点" ++ toString (i + 1))
        content := c.content.getD ""
        description := c.description.getD (c.content.getD "")
        level := parentLevel + 1
        parent_id := some parentId
        isRoot := false }
    let edge : RFEdge :=
      { id := "edge-" ++ parentId ++ "-" ++ cid, source := parentId, target := cid }
    let (gns, ges, ctr1) := addGrandchildren cid parentLevel i c.children 0 (ctr + 1)
    let (ns, es, ctr2) := addChildren parentId parentLevel cs (i + 1) ctr1
    (node :: (gns ++ ns), edge :: (ges ++ es), ctr2)

/-- LLMService._create_expansion_nodes: truncate children to max_children and
build the two-level node/edge lists relative to the parent node. -/
def createExpansionNodes (parent : MMNode) (data : ExpansionData) (maxChildren : Nat) :
    List RFNode × List RFEdge :=
  let cs := data.children.take maxChildren
  let (ns, es, _) := addChildren parent.id parent.level cs 0 0
  (ns, es)

/-- The try-block of LLMService.expand_node: locate the target node by id in
current_nodes (raising ValueError "Node not found" when absent), then call the
provider (the chat-completion + JSON parse, modelled as an oracle) and build
the expansion nodes. `Except.error` is a raised exception. -/
def expandNodeAttempt (req : NodeExpansionRequest) (current_nodes : List MMNode)
    (provider : Except String ExpansionData) : Except String (List RFNode × List RFEdge) :=
  match current_nodes.find? (fun n => n.id == req.node_id) with
  | none => .error "Node not found"
  | some target =>
    match provider with
    | .error e => .error e
    | .ok data => .ok (createExpansionNodes target data req.max_children)

/-- LLMService.expand_node: the catch-all `except Exception` around the
try-block converts ANY raised error - including the ValueError("Node not
found") - into the empty result {"nodes": [], "edges": []}. -/
def llmExpandNode (req : NodeExpansionRequest) (current_nodes : List MMNode)
    (provider : Except String ExpansionData) : List RFNode × List RFEdge :=
  match expandNodeAttempt req current_nodes provider with
  | .ok r => r
  | .error _ => ([], [])

/-- A work-function result: either an expand_node expansion ({"nodes","edges"})
or a generate_mindmap payload (nodes, edges, title, description, optional
mindmap_id attached after the mindmap document is saved). -/
inductive TaskResult where
  | expansion (nodes : List RFNode) (edges : List RFEdge)
  | mindmap (nodes : List RFNode) (edges : List RFEdge) (title : String)
      (description : Option String) (mindmap_id : Option String)
deriving DecidableEq, Repr

/-- input_data of an expand_node task: {"request": ..., "current_nodes": [...]}. -/
structure ExpandInput where
  request : NodeExpansionRequest
  current_nodes : List MMNode
deriving DecidableEq, Repr

/-- A task's input_data, tagged by the kind that interprets it. -/
inductive InputData where
  | forExpand (e : ExpandInput)
  | forGenerate (g : GenerateMindMapRequest)
deriving DecidableEq, Repr

/-- A persisted task document (models/task.py Task / the Mongo document written
by TaskService). Timestamps are Nat clock values. -/
structure TaskDoc where
  id : Nat
  user_id : Nat
  task_type : TaskType
  status : TaskStatus
  progress : Nat
  result : Option TaskResult
  error_message : Option String
  input_data : InputData
  title : Option String
  description : Option String
  task_definition : Option InputData
  is_stoppable : Bool
  is_restartable : Bool
  deleted : Bool
  created_at : Nat
  updated_at : Nat
  completed_at : Option Nat
deriving DecidableEq, Repr

/-- models/task.py TaskUpdate: every field optional; `None` fields are dropped
from the $set document by update_task. -/
structure TaskUpdateRec where
  status : Option TaskStatus := none
  progress : Option Nat := none
  result : Option TaskResult := none
  error_message : Option String := none
  title : Option String := none
  description : Option String := none
  task_definition : Option InputData := none
  is_stoppable : Option Bool := none
  is_restartable : Option Bool := none
  deleted : Option Bool := none
deriving DecidableEq, Repr

/-- models/task.py TaskCreate: the caller-supplied creation payload (the
TaskBase fields status/progress/result/error_message/deleted take their
defaults pending/0/None/None/False). -/
structure TaskCreateRec where
  task_type : TaskType
  input_data : InputData
  user_id : Nat
  title : Option String := none
  description : Option String := none
  task_definition : Option InputData := none
  is_stoppable : Bool := true
  is_restartable : Bool := true
deriving DecidableEq, Repr

/-- TaskService.update_task applied to one document: $set all non-None fields,
always refresh updated_at, and stamp completed_at iff the update's status is
COMPLETED or FAILED. -/
def applyUpdate (d : TaskDoc) (u : TaskUpdateRec) (now : Nat) : TaskDoc :=
  { d with
    status := u.status.getD d.status
    progress := u.progress.getD d.progress
    result := u.result.orElse (fun _ => d.result)
    error_message := u.error_message.orElse (fun _ => d.error_message)
    title := u.title.orElse (fun _ => d.title)
    description := u.description.orElse (fun _ => d.description)
    task_definition := u.task_definition.orElse (fun _ => d.task_definition)
    is_stoppable := u.is_stoppable.getD d.is_stoppable
    is_restartable := u.is_restartable.getD d.is_restartable
    deleted := u.deleted.getD d.deleted
    updated_at := now
    completed_at :=
      if u.status = some TaskStatus.completed ∨ u.status = some TaskStatus.failed then
        some now
      else d.completed_at }

/-- In-process registry entry: running_tasks maps a task id to its live
asyncio.Task; `pos` records how many persisted updates the execution unit has
already issued (0 = none yet). -/
structure ExecEntry where
  task_id : Nat
  ty : TaskType
  pos : Nat
deriving DecidableEq, Repr

/-- Whole-system state: the tasks collection, the in-process running_tasks
registry, the next store-assigned id, and the write clock. -/
structure SystemState where
  store : List TaskDoc
  registry : List ExecEntry
  nextId : Nat
  clock : Nat
deriving DecidableEq, Repr

/-- tasks_collection.update_one({_id: tid}, {$set: ...}) applied to the store. -/
def updateStore (store : List TaskDoc) (tid : Nat) (u : TaskUpdateRec) (now : Nat) :
    List TaskDoc :=
  store.map (fun d => if d.id = tid then applyUpdate d u now else d)

/-- TaskService.update_task: write the update, return modified_count > 0
(Mongo reports a document as modified only when its content actually changed). -/
def update_task (s : SystemState) (tid : Nat) (u : TaskUpdateRec) : SystemState × Bool :=
  ({ s with store := updateStore s.store tid u s.clock, clock := s.clock + 1 },
   s.store.any (fun d => d.id == tid && decide (applyUpdate d u s.clock ≠ d)))

/-- The document inserted by TaskService.create_task: the TaskCreate payload
plus created_at/updated_at and the store-assigned id; TaskBase defaults give
status=pending, progress=0, result=None, error_message=None, deleted=False. -/
def newDoc (c : TaskCreateRec) (nid now : Nat) : TaskDoc :=
  { id := nid
    user_id := c.user_id
    task_type := c.task_type
    status := TaskStatus.pending
    progress := 0
    result := none
    error_message := none
    input_data := c.input_data
    title := c.title
    description := c.description
    task_definition := c.task_definition
    is_stoppable := c.is_stoppable
    is_restartable := c.is_restartable
    deleted := false
    created_at := now
    updated_at := now
    completed_at := none }

/-- TaskService.create_task: insert the pending document, spawn the execution
unit and register it in running_tasks, return the new id. -/
def create_task (s : SystemState) (c : TaskCreateRec) : SystemState × Nat :=
  ({ store := s.store ++ [newDoc c s.nextId s.clock]
     registry := s.registry ++ [⟨s.nextId, c.task_type, 0⟩]
     nextId := s.nextId + 1
     clock := s.clock + 1 }, s.nextId)

/-- TaskService.get_task: find_one({_id: tid, user_id: uid}) - scoped to the
owner, indifferent to the deleted flag. -/
def get_task (s : SystemState) (tid uid : Nat) : Option TaskDoc :=
  s.store.find? (fun d => d.id == tid && d.user_id == uid)

/-- Insertion step of `.sort("created_at", -1)`: place a document before the
first strictly-older one. -/
def insertByCreatedDesc (d : TaskDoc) : List TaskDoc → List TaskDoc
  | [] => [d]
  | x :: xs =>
    if d.created_at ≥ x.created_at then d :: x :: xs else x :: insertByCreatedDesc d xs

/-- Sort documents by created_at, most recent first. -/
def sortByCreatedDesc (l : List TaskDoc) : List TaskDoc :=
  l.foldr insertByCreatedDesc []

/-- TaskService.get_user_tasks: find({user_id: uid, deleted: {$ne: true}})
sorted by created_at descending, limited. (The legacy-field default-filling on
the returned view does not touch the store and is not represented.) -/
def get_user_tasks (s : SystemState) (uid limit : Nat) : List TaskDoc :=
  (sortByCreatedDesc (s.store.filter (fun d => d.user_id == uid && !d.deleted))).take limit

/-- Progress checkpoints persisted by the work functions:
_execute_generate_mindmap writes 30/50/70/90, _execute_expand_node 30/50/90. -/
def checkpoints : TaskType → List Nat
  | TaskType.generate_mindmap => [30, 50, 70, 90]
  | TaskType.expand_node => [30, 50, 90]

/-- Number of non-terminal persisted updates of one execution: the initial
(status=RUNNING, progress=10) update plus one per checkpoint. -/
def numUpdates (ty : TaskType) : Nat := 1 + (checkpoints ty).length

/-- The `pos`-th non-terminal persisted update of an execution. -/
def execUpdate (ty : TaskType) (pos : Nat) : TaskUpdateRec :=
  if pos = 0 then { status := some TaskStatus.running, progress := some 10 }
  else { progress := some ((checkpoints ty).getD (pos - 1) 0) }

/-- Terminal update on normal completion: status=COMPLETED, progress=100,
result attached. -/
def completedUpdate (r : TaskResult) : TaskUpdateRec :=
  { status := some TaskStatus.completed, progress := some 100, result := some r }

/-- Terminal update of the outer exception handler: status=FAILED, progress=0,
captured message. -/
def failedUpdate (msg : String) : TaskUpdateRec :=
  { status := some TaskStatus.failed, progress := some 0
    error_message := some ("Task execution failed: " ++ msg) }

/-- Terminal update of the asyncio.CancelledError handler: status=STOPPED,
progress=0, the fixed stopped-by-user message. -/
def cancelledUpdate : TaskUpdateRec :=
  { status := some TaskStatus.stopped, progress := some 0
    error_message := some "任务已被停止" }

/-- The direct write of stop_task when no live registry entry exists:
status=STOPPED and the fixed message, progress untouched. -/
def stopDirectUpdate : TaskUpdateRec :=
  { status := some TaskStatus.stopped, error_message := some "任务已被停止" }

/-- Logical deletion write used by restart_task and delete_task. -/
def deleteUpdate : TaskUpdateRec := { deleted := some true }

/-- Ids currently present in the running_tasks registry. -/
def registryIds (s : SystemState) : List Nat := s.registry.map (fun e => e.task_id)

/-- The finally-block of _execute_task: `del self.running_tasks[task_id]`. -/
def deregister (s : SystemState) (tid : Nat) : SystemState :=
  { s with registry := s.registry.filter (fun e => e.task_id ≠ tid) }

/-- Scheduler step: the execution unit of `e` issues its next non-terminal
persisted update and advances. -/
def advanceState (s : SystemState) (e : ExecEntry) : SystemState :=
  let s1 := (update_task s e.task_id (execUpdate e.ty e.pos)).1
  { s1 with
    registry := s.registry.map (fun x => if x = e then { x with pos := x.pos + 1 } else x) }

/-- Scheduler step: the work function returns `r`; the executor writes the
COMPLETED update and the finally-block deregisters the entry. -/
def succeedState (s : SystemState) (e : ExecEntry) (r : TaskResult) : SystemState :=
  deregister (update_task s e.task_id (completedUpdate r)).1 e.task_id

/-- Scheduler step: the work function raises; the outer handler writes the
FAILED update and the finally-block deregisters the entry. -/
def failState (s : SystemState) (e : ExecEntry) (msg : String) : SystemState :=
  deregister (update_task s e.task_id (failedUpdate msg)).1 e.task_id

/-- TaskService.stop_task: owner-scoped lookup; refuse unless status is
PENDING or RUNNING; with a live registry entry, cancel it (the executor's
CancelledError handler writes the STOPPED update and the finally-block
deregisters), otherwise force the persisted status directly to STOPPED.
The source's `if not running_task.done()` test is vacuous in the sequential
model: a finished execution unit has already removed itself from
running_tasks in its finally-block, so a registered entry is never done. -/
def stop_task (s : SystemState) (tid uid : Nat) : SystemState × Bool :=
  match get_task s tid uid with
  | none => (s, false)
  | some d =>
    if d.status = TaskStatus.pending ∨ d.status = TaskStatus.running then
      if tid ∈ registryIds s then
        (deregister (update_task s tid cancelledUpdate).1 tid, true)
      else
        ((update_task s tid stopDirectUpdate).1, true)
    else (s, false)

/-- The TaskCreate payload restart_task builds from the original document. -/
def cloneCreate (d : TaskDoc) (uid : Nat) : TaskCreateRec :=
  { task_type := d.task_type
    input_data := d.input_data
    user_id := uid
    title := d.title
    description := d.description
    task_definition := d.task_definition
    is_stoppable := d.is_stoppable
    is_restartable := d.is_restartable }

/-- TaskService.restart_task: only a STOPPED task is eligible; logically
delete the original, then create (and register) a brand-new clone. -/
def restart_task (s : SystemState) (tid uid : Nat) : SystemState × Option Nat :=
  match get_task s tid uid with
  | none => (s, none)
  | some d =>
    if d.status = TaskStatus.stopped then
      ((create_task (update_task s tid deleteUpdate).1 (cloneCreate d uid)).1,
       some (create_task (update_task s tid deleteUpdate).1 (cloneCreate d uid)).2)
    else (s, none)

/-- TaskService.delete_task: refuse while PENDING or RUNNING; otherwise write
the logical-deletion update and return update_task's modified flag. -/
def delete_task (s : SystemState) (tid uid : Nat) : SystemState × Bool :=
  match get_task s tid uid with
  | none => (s, false)
  | some d =>
    if d.status = TaskStatus.pending ∨ d.status = TaskStatus.running then (s, false)
    else update_task s tid deleteUpdate

/-- One transition of the system: an API call (create/stop/restart/delete) or
a scheduler step of a registered execution unit. get_task and get_user_tasks
are pure reads. -/
inductive Step : SystemState → SystemState → Prop where
  | create {s : SystemState} (c : TaskCreateRec) : Step s (create_task s c).1
  | advance {s : SystemState} (e : ExecEntry) (he : e ∈ s.registry)
      (hp : e.pos < numUpdates e.ty) : Step s (advanceState s e)
  | succeed {s : SystemState} (e : ExecEntry) (he : e ∈ s.registry)
      (hp : e.pos = numUpdates e.ty) (r : TaskResult) : Step s (succeedState s e r)
  | fail {s : SystemState} (e : ExecEntry) (he : e ∈ s.registry) (msg : String) :
      Step s (failState s e msg)
  | stop {s : SystemState} (tid uid : Nat) : Step s (stop_task s tid uid).1
  | restart {s : SystemState} (tid uid : Nat) : Step s (restart_task s tid uid).1
  | del {s : SystemState} (tid uid : Nat) : Step s (delete_task s tid uid).1

/-- States reachable from the empty deployment. -/
inductive Reachable : SystemState → Prop where
  | init : Reachable { store := [], registry := [], nextId := 0, clock := 0 }
  | step {s s' : SystemState} : Reachable s → Step s s' → Reachable s'

/-- Outcome of one execution attempt of _execute_task: the work function
returns a result after all checkpoints, raises after `k` persisted updates, or
observes cancellation after `k` persisted updates. -/
inductive ExecOutcome where
  | success (r : TaskResult)
  | failure (k : Nat) (msg : String)
  | cancelled (k : Nat)
deriving DecidableEq, Repr

/-- The sequence of updates _execute_task persists during a single execution
attempt with the given outcome. -/
def execTrace (ty : TaskType) : ExecOutcome → List TaskUpdateRec
  | ExecOutcome.success r =>
    (List.range (numUpdates ty)).map (execUpdate ty) ++ [completedUpdate r]
  | ExecOutcome.failure k msg =>
    (List.range (min k (numUpdates ty))).map (execUpdate ty) ++ [failedUpdate msg]
  | ExecOutcome.cancelled k =>
    (List.range (min k (numUpdates ty))).map (execUpdate ty) ++ [cancelledUpdate]

/-- The progress values persisted for a task across one execution attempt: the
initial 0 written at creation followed by every progress field the trace sets. -/
def persistedProgress (ty : TaskType) (o : ExecOutcome) : List Nat :=
  0 :: (execTrace ty o).filterMap (fun u => u.progress)

/-- Fold a trace of updates over a document, the clock advancing per write. -/
def applyTrace (d : TaskDoc) (tr : List TaskUpdateRec) (now : Nat) : TaskDoc :=
  match tr with
  | [] => d
  | u :: us => applyTrace (applyUpdate d u now) us (now + 1)

/-- Outcome of _execute_expand_node on well-formed input: llmExpandNode
swallows every provider error and the target-not-found ValueError, so the work
function always returns and the execution attempt always completes. -/
def expandWorkOutcome (inp : ExpandInput) (provider : Except String ExpansionData) :
    ExecOutcome :=
  let p := llmExpandNode inp.request inp.current_nodes provider
  ExecOutcome.success (TaskResult.expansion p.1 p.2)

/-- Concrete expand_node request whose target id is absent from the supplied
current-node list. -/
def c1Request : NodeExpansionRequest :=
  { node_id := "missing", expansion_topic := "more detail", max_children := 15 }

/-- Concrete caller-supplied node context without the requested id. -/
def c1Nodes : List MMNode := [{ id := "n1", label := "Root" }]

/-- input_data of the concrete expand_node task used for C1. -/
def c1Input : ExpandInput := { request := c1Request, current_nodes := c1Nodes }

/-- A provider reply that would yield children if the target were found. -/
def c1Provider : Except String ExpansionData :=
  Except.ok { children := [{ label := some "child", content := some "c" }] }

/-- The TaskCreate payload of the concrete expand_node task (owner 7). -/
def c1Create : TaskCreateRec :=
  { task_type := TaskType.expand_node
    input_data := InputData.forExpand c1Input
    user_id := 7
    title := some "扩展节点: 未知节点" }

/-- The document the concrete expand_node task ends at after its single
execution attempt. -/
def c1FinalDoc : TaskDoc :=
  applyTrace (newDoc c1Create 0 0)
    (execTrace TaskType.expand_node (expandWorkOutcome c1Input c1Provider)) 1

/-- Empty deployment. -/
def exState0 : SystemState := { store := [], registry := [], nextId := 0, clock := 0 }

/-- One expand_node task created (id 0, owner 7, pending, registered). -/
def exState1 : SystemState := (create_task exState0 c1Create).1

/-- The same task after stop_task 0 7 (cancellation handler ran). -/
def exState2 : SystemState := (stop_task exState1 0 7).1

/-- The stopped task after delete_task 0 7 (logically deleted). -/
def exState3 : SystemState := (delete_task exState2 0 7).1

/-- The stopped document of exState2. -/
def exDoc2 : TaskDoc := applyUpdate (newDoc c1Create 0 0) cancelledUpdate 1

/-- The stopped and logically deleted document of exState3. -/
def exDoc3 : TaskDoc := applyUpdate exDoc2 deleteUpdate 2

/-- Per-document invariant, relative to the store's id counter and clock. -/
structure DocInv (nid cl : Nat) (d : TaskDoc) : Prop where
  progress_le : d.progress ≤ 100
  completed_progress : d.status = TaskStatus.completed → d.progress = 100
  terminal_no_result :
    d.status = TaskStatus.failed ∨ d.status = TaskStatus.stopped → d.result = none
  live_clean :
    d.status = TaskStatus.pending ∨ d.status = TaskStatus.running →
      d.result = none ∧ d.deleted = false ∧ d.completed_at = none
  not_restarting : d.status ≠ TaskStatus.restarting
  stopped_no_stamp : d.status = TaskStatus.stopped → d.completed_at = none
  completed_at_iff :
    (d.status = TaskStatus.completed ∨ d.status = TaskStatus.failed) ↔
      d.completed_at.isSome = true
  id_lt : d.id < nid
  updated_lt : d.updated_at < cl

/-- Whole-state invariant: every document satisfies DocInv, ids are unique in
the store and the registry, and every registry entry points at a pending
(before its first update) or running document. -/
structure StateInv (s : SystemState) : Prop where
  docs : ∀ d ∈ s.store, DocInv s.nextId s.clock d
  ids_unique : s.store.Pairwise (fun a b => a.id ≠ b.id)
  reg_unique : s.registry.Pairwise (fun a b => a.task_id ≠ b.task_id)
  reg_docs : ∀ e ∈ s.registry, e.pos ≤ numUpdates e.ty ∧
    ∃ d ∈ s.store, d.id = e.task_id ∧
      (e.pos = 0 → d.status = TaskStatus.pending) ∧
      (e.pos ≠ 0 → d.status = TaskStatus.running)

lemma applyUpdate_id (d : TaskDoc) (u : TaskUpdateRec) (now : Nat) :
    (applyUpdate d u now).id = d.id := rfl

lemma applyUpdate_user_id (d : TaskDoc) (u : TaskUpdateRec) (now : Nat) :
    (applyUpdate d u now).user_id = d.user_id := rfl

lemma docInv_mono {nid nid' cl cl' : Nat} {d : TaskDoc} (h : DocInv nid cl d)
    (hn : nid ≤ nid') (hc : cl ≤ cl') : DocInv nid' cl' d :=
  { h with
    id_lt := Nat.lt_of_lt_of_le h.id_lt hn
    updated_lt := Nat.lt_of_lt_of_le h.updated_lt hc }

/-- Two store members with the same id are the same document. -/
lemma eq_of_mem_of_same_id {l : List TaskDoc} {d d' : TaskDoc}
    (h : l.Pairwise (fun a b => a.id ≠ b.id)) (hd : d ∈ l) (hd' : d' ∈ l)
    (hid : d.id = d'.id) : d = d' := by
  by_contra hne
  exact (h.forall (fun a b hab => (Ne.symm hab)) hd hd' hne) hid

lemma find?_map_comm {l : List TaskDoc} (g : TaskDoc → TaskDoc) (p : TaskDoc → Bool)
    (h : ∀ x, p (g x) = p x) : (l.map g).find? p = (l.find? p).map g := by
  induction l with
  | nil => rfl
  | cons x xs ih =>
    simp only [List.map_cons, List.find?_cons, h x]
    cases hx : p x <;> simp [ih]

/-- get_task commutes with a store update (updates preserve id and owner). -/
lemma get_task_update (s : SystemState) (tid : Nat) (u : TaskUpdateRec)
    (tid' uid : Nat) :
    get_task (update_task s tid u).1 tid' uid =
      (get_task s tid' uid).map (fun d => if d.id = tid then applyUpdate d u s.clock else d) := by
  unfold get_task update_task updateStore
  exact find?_map_comm _ _ (by
    intro x
    by_cases hx : x.id = tid <;> simp [hx, applyUpdate_id, applyUpdate_user_id])

lemma mem_updateStore_of_ne {store : List TaskDoc} {tid : Nat} {u : TaskUpdateRec}
    {now : Nat} {d : TaskDoc} (hd : d ∈ store) (hne : d.id ≠ tid) :
    d ∈ updateStore store tid u now :=
  List.mem_map.mpr ⟨d, hd, by simp [hne]⟩

lemma mem_updateStore_self {store : List TaskDoc} {tid : Nat} {u : TaskUpdateRec}
    {now : Nat} {d : TaskDoc} (hd : d ∈ store) (heq : d.id = tid) :
    applyUpdate d u now ∈ updateStore store tid u now :=
  List.mem_map.mpr ⟨d, hd, by simp [heq]⟩

lemma docs_updateStore {s : SystemState} {tid : Nat} {u : TaskUpdateRec}
    (h : ∀ d ∈ s.store, DocInv s.nextId s.clock d)
    (htouched : ∀ d ∈ s.store, d.id = tid →
      DocInv s.nextId (s.clock + 1) (applyUpdate d u s.clock)) :
    ∀ d' ∈ updateStore s.store tid u s.clock, DocInv s.nextId (s.clock + 1) d' := by
  intro d' hd'
  rcases List.mem_map.mp hd' with ⟨d, hd, rfl⟩
  by_cases hid : d.id = tid
  · simpa [hid] using htouched d hd hid
  · simpa [hid] using docInv_mono (h d hd) le_rfl (Nat.le_succ _)

lemma ids_unique_updateStore {store : List TaskDoc} {tid : Nat} {u : TaskUpdateRec}
    {now : Nat} (h : store.Pairwise (fun a b => a.id ≠ b.id)) :
    (updateStore store tid u now).Pairwise (fun a b => a.id ≠ b.id) := by
  have hid : ∀ x : TaskDoc,
      ((if x.id = tid then applyUpdate x u now else x) : TaskDoc).id = x.id := by
    intro x
    split <;> rfl
  refine List.Pairwise.map _ (fun a b hab => ?_) h
  rw [hid a, hid b]
  exact hab

/-- Every checkpoint value (or the getD default) is at most 100. -/
lemma checkpoint_le (ty : TaskType) (i : Nat) : (checkpoints ty)[i]?.getD 0 ≤ 100 := by
  cases h : (checkpoints ty)[i]? with
  | none => simp
  | some v =>
    have hv : v ∈ checkpoints ty := List.getElem?_mem h
    have : ∀ x ∈ checkpoints ty, x ≤ 100 := by cases ty <;> decide
    simpa using this v hv

lemma docInv_newDoc (c : TaskCreateRec) (n cl : Nat) :
    DocInv (n + 1) (cl + 1) (newDoc c n cl) := by
  refine ⟨?_, ?_, ?_, ?_, ?_, ?_, ?_, ?_, ?_⟩ <;> simp [newDoc]

lemma docInv_run {nid cl : Nat} {d : TaskDoc} (h : DocInv nid cl d)
    (hp : d.status = TaskStatus.pending) (ty : TaskType) :
    DocInv nid (cl + 1) (applyUpdate d (execUpdate ty 0) cl) := by
  obtain ⟨hres, hdel, hca⟩ := h.live_clean (Or.inl hp)
  refine ⟨?_, ?_, ?_, ?_, ?_, ?_, ?_, ?_, ?_⟩ <;>
    simp [applyUpdate, execUpdate, hres, hdel, hca, h.id_lt]

lemma docInv_checkpoint {nid cl : Nat} {d : TaskDoc} (h : DocInv nid cl d)
    (hr : d.status = TaskStatus.running) (ty : TaskType) (pos : Nat) (hpos : pos ≠ 0) :
    DocInv nid (cl + 1) (applyUpdate d (execUpdate ty pos) cl) := by
  obtain ⟨hres, hdel, hca⟩ := h.live_clean (Or.inr hr)
  refine ⟨?_, ?_, ?_, ?_, ?_, ?_, ?_, ?_, ?_⟩ <;>
    simp [applyUpdate, execUpdate, hpos, hr, hres, hdel, hca, h.id_lt, checkpoint_le]

lemma docInv_completed {nid cl : Nat} {d : TaskDoc} (h : DocInv nid cl d)
    (r : TaskResult) :
    DocInv nid (cl + 1) (applyUpdate d (completedUpdate r) cl) := by
  refine ⟨?_, ?_, ?_, ?_, ?_, ?_, ?_, ?_, ?_⟩ <;>
    simp [applyUpdate, completedUpdate, h.id_lt]

lemma docInv_failed {nid cl : Nat} {d : TaskDoc} (h : DocInv nid cl d)
    (hlive : d.status = TaskStatus.pending ∨ d.status = TaskStatus.running)
    (msg : String) :
    DocInv nid (cl + 1) (applyUpdate d (failedUpdate msg) cl) := by
  obtain ⟨hres, hdel, hca⟩ := h.live_clean hlive
  refine ⟨?_, ?_, ?_, ?_, ?_, ?_, ?_, ?_, ?_⟩ <;>
    simp [applyUpdate, failedUpdate, hres, hdel, hca, h.id_lt]

lemma docInv_cancelled {nid cl : Nat} {d : TaskDoc} (h : DocInv nid cl d)
    (hlive : d.status = TaskStatus.pending ∨ d.status = TaskStatus.running) :
    DocInv nid (cl + 1) (applyUpdate d cancelledUpdate cl) := by
  obtain ⟨hres, hdel, hca⟩ := h.live_clean hlive
  refine ⟨?_, ?_, ?_, ?_, ?_, ?_, ?_, ?_, ?_⟩ <;>
    simp [applyUpdate, cancelledUpdate, hres, hdel, hca, h.id_lt]

lemma docInv_stopDirect {nid cl : Nat} {d : TaskDoc} (h : DocInv nid cl d)
    (hlive : d.status = TaskStatus.pending ∨ d.status = TaskStatus.running) :
    DocInv nid (cl + 1) (applyUpdate d stopDirectUpdate cl) := by
  obtain ⟨hres, hdel, hca⟩ := h.live_clean hlive
  refine ⟨?_, ?_, ?_, ?_, ?_, ?_, ?_, ?_, ?_⟩ <;>
    simp [applyUpdate, stopDirectUpdate, hres, hdel, hca, h.id_lt, h.progress_le]

lemma docInv_deleted {nid cl : Nat} {d : TaskDoc} (h : DocInv nid cl d)
    (hnot : ¬(d.status = TaskStatus.pending ∨ d.status = TaskStatus.running)) :
    DocInv nid (cl + 1) (applyUpdate d deleteUpdate cl) := by
  refine ⟨?_, ?_, ?_, ?_, ?_, ?_, ?_, ?_, ?_⟩
  · simpa [applyUpdate, deleteUpdate] using h.progress_le
  · simpa [applyUpdate, deleteUpdate] using h.completed_progress
  · simpa [applyUpdate, deleteUpdate] using h.terminal_no_result
  · intro hlive
    exact absurd (by simpa [applyUpdate, deleteUpdate] using hlive) hnot
  · simpa [applyUpdate, deleteUpdate] using h.not_restarting
  · simpa [applyUpdate, deleteUpdate] using h.stopped_no_stamp
  · simpa [applyUpdate, deleteUpdate] using h.completed_at_iff
  · simpa [applyUpdate, deleteUpdate] using h.id_lt
  · simp [applyUpdate, deleteUpdate]

lemma stateInv_create {s : SystemState} (h : StateInv s) (c : TaskCreateRec) :
    StateInv (create_task s c).1 := by
  refine ⟨?_, ?_, ?_, ?_⟩
  · intro d hd
    rcases List.mem_append.mp hd with hold | hnew
    · exact docInv_mono (h.docs d hold) (Nat.le_succ _) (Nat.le_succ _)
    · rw [List.mem_singleton] at hnew
      subst hnew
      exact docInv_newDoc c s.nextId s.clock
  · refine List.pairwise_append.mpr ⟨h.ids_unique, List.pairwise_singleton _ _, ?_⟩
    intro a ha b hb
    rw [List.mem_singleton] at hb
    subst hb
    have := (h.docs a ha).id_lt
    show a.id ≠ s.nextId
    omega
  · refine List.pairwise_append.mpr ⟨h.reg_unique, List.pairwise_singleton _ _, ?_⟩
    intro a ha b hb
    rw [List.mem_singleton] at hb
    subst hb
    obtain ⟨-, d, hd, hdid, -, -⟩ := h.reg_docs a ha
    have := (h.docs d hd).id_lt
    show a.task_id ≠ s.nextId
    omega
  · intro e he
    rcases List.mem_append.mp he with hold | hnew
    · obtain ⟨hpos, d, hd, hdid, hpend, hrun⟩ := h.reg_docs e hold
      exact ⟨hpos, d, List.mem_append_left _ hd, hdid, hpend, hrun⟩
    · rw [List.mem_singleton] at hnew
      subst hnew
      exact ⟨Nat.zero_le _, newDoc c s.nextId s.clock,
        List.mem_append_right _ (List.mem_singleton.mpr rfl), rfl,
        fun _ => rfl, fun hh => absurd rfl hh⟩

/-- A terminal write (COMPLETED/FAILED/STOPPED from the executor's handlers)
followed by the finally-block deregistration preserves the invariant. -/
lemma stateInv_term {s : SystemState} (h : StateInv s) (tid : Nat) (u : TaskUpdateRec)
    (htouched : ∀ d ∈ s.store, d.id = tid →
      DocInv s.nextId (s.clock + 1) (applyUpdate d u s.clock)) :
    StateInv (deregister (update_task s tid u).1 tid) := by
  refine ⟨?_, ?_, ?_, ?_⟩
  · exact docs_updateStore h.docs htouched
  · exact ids_unique_updateStore h.ids_unique
  · exact List.Pairwise.sublist (List.filter_sublist _) h.reg_unique
  · intro e he
    obtain ⟨hereg, hne'⟩ := List.mem_filter.mp he
    have hne : e.task_id ≠ tid := by simpa using hne'
    obtain ⟨hpos, d, hd, hdid, hpend, hrun⟩ := h.reg_docs e hereg
    exact ⟨hpos, d, mem_updateStore_of_ne hd (by rw [hdid]; exact hne), hdid, hpend, hrun⟩

/-- A write to a task id with no live registry entry preserves the invariant. -/
lemma stateInv_write_noreg {s : SystemState} (h : StateInv s) (tid : Nat)
    (u : TaskUpdateRec)
    (htouched : ∀ d ∈ s.store, d.id = tid →
      DocInv s.nextId (s.clock + 1) (applyUpdate d u s.clock))
    (hreg : ∀ e ∈ s.registry, e.task_id ≠ tid) :
    StateInv (update_task s tid u).1 := by
  refine ⟨?_, ?_, ?_, ?_⟩
  · exact docs_updateStore h.docs htouched
  · exact ids_unique_updateStore h.ids_unique
  · exact h.reg_unique
  · intro e he
    obtain ⟨hpos, d, hd, hdid, hpend, hrun⟩ := h.reg_docs e he
    exact ⟨hpos, d, mem_updateStore_of_ne hd (by rw [hdid]; exact hreg e he), hdid,
      hpend, hrun⟩

lemma stateInv_advance {s : SystemState} (h : StateInv s) (e : ExecEntry)
    (he : e ∈ s.registry) (hp : e.pos < numUpdates e.ty) :
    StateInv (advanceState s e) := by
  obtain ⟨hpos, de, hde, hdeid, hpend, hrun⟩ := h.reg_docs e he
  have hbump : ∀ x : ExecEntry,
      ((if x = e then { x with pos := x.pos + 1 } else x) : ExecEntry).task_id
        = x.task_id := by
    intro x
    split <;> rfl
  have htouched : ∀ d ∈ s.store, d.id = e.task_id →
      DocInv s.nextId (s.clock + 1) (applyUpdate d (execUpdate e.ty e.pos) s.clock) := by
    intro d hd hdid
    have hd_eq : d = de := eq_of_mem_of_same_id h.ids_unique hd hde (by rw [hdid, hdeid])
    subst hd_eq
    by_cases h0 : e.pos = 0
    · rw [h0]
      exact docInv_run (h.docs d hd) (hpend h0) e.ty
    · exact docInv_checkpoint (h.docs d hd) (hrun h0) e.ty e.pos h0
  refine ⟨?_, ?_, ?_, ?_⟩
  · exact docs_updateStore h.docs htouched
  · exact ids_unique_updateStore h.ids_unique
  · refine List.Pairwise.map _ (fun a b hab => ?_) h.reg_unique
    simpa [hbump] using hab
  · intro e' he'
    rcases List.mem_map.mp he' with ⟨x, hx, rfl⟩
    by_cases hxe : x = e
    · subst hxe
      rw [if_pos rfl]
      refine ⟨?_, applyUpdate de (execUpdate x.ty x.pos) s.clock,
        mem_updateStore_self hde hdeid, ?_, ?_, ?_⟩
      · show x.pos + 1 ≤ numUpdates x.ty
        omega
      · show (applyUpdate de (execUpdate x.ty x.pos) s.clock).id = x.task_id
        rw [applyUpdate_id, hdeid]
      · intro hh
        exact absurd hh (Nat.succ_ne_zero _)
      · intro _
        by_cases h0 : x.pos = 0
        · rw [h0]
          simp [applyUpdate, execUpdate]
        · simp [applyUpdate, execUpdate, h0, hrun h0]
    · simp only [if_neg hxe]
      have hne : x.task_id ≠ e.task_id :=
        h.reg_unique.forall (fun a b hab => Ne.symm hab) hx he hxe
      obtain ⟨hpos', d', hd', hdid', hpend', hrun'⟩ := h.reg_docs x hx
      exact ⟨hpos', d', mem_updateStore_of_ne hd' (by rw [hdid']; exact hne), hdid',
        hpend', hrun'⟩

lemma stateInv_succeed {s : SystemState} (h : StateInv s) (e : ExecEntry)
    (_he : e ∈ s.registry) (r : TaskResult) : StateInv (succeedState s e r) := by
  apply stateInv_term h e.task_id (completedUpdate r)
  intro d hd _
  exact docInv_completed (h.docs d hd) r

lemma stateInv_fail {s : SystemState} (h : StateInv s) (e : ExecEntry)
    (he : e ∈ s.registry) (msg : String) : StateInv (failState s e msg) := by
  obtain ⟨hpos, de, hde, hdeid, hpend, hrun⟩ := h.reg_docs e he
  apply stateInv_term h e.task_id (failedUpdate msg)
  intro d hd hdid
  have hd_eq : d = de := eq_of_mem_of_same_id h.ids_unique hd hde (by rw [hdid, hdeid])
  subst hd_eq
  by_cases h0 : e.pos = 0
  · exact docInv_failed (h.docs d hd) (Or.inl (hpend h0)) msg
  · exact docInv_failed (h.docs d hd) (Or.inr (hrun h0)) msg

lemma owner_found {s : SystemState} {tid uid : Nat} {d : TaskDoc}
    (hm : get_task s tid uid = some d) :
    d ∈ s.store ∧ d.id = tid ∧ d.user_id = uid := by
  refine ⟨List.mem_of_find?_eq_some hm, ?_, ?_⟩ <;>
    have hp := List.find?_some hm <;> simp at hp <;> tauto

lemma stateInv_stop {s : SystemState} (h : StateInv s) (tid uid : Nat) :
    StateInv (stop_task s tid uid).1 := by
  rcases hm : get_task s tid uid with _ | d
  · simp only [stop_task, hm]
    exact h
  · obtain ⟨hdmem, hdid, hduid⟩ := owner_found hm
    simp only [stop_task, hm]
    by_cases hlive : d.status = TaskStatus.pending ∨ d.status = TaskStatus.running
    · rw [if_pos hlive]
      by_cases hin : tid ∈ registryIds s
      · rw [if_pos hin]
        apply stateInv_term h tid cancelledUpdate
        intro d' hd' hdid'
        have hd_eq : d' = d := eq_of_mem_of_same_id h.ids_unique hd' hdmem
          (by rw [hdid', hdid])
        subst hd_eq
        exact docInv_cancelled (h.docs d' hd') hlive
      · rw [if_neg hin]
        apply stateInv_write_noreg h tid stopDirectUpdate
        · intro d' hd' hdid'
          have hd_eq : d' = d := eq_of_mem_of_same_id h.ids_unique hd' hdmem
            (by rw [hdid', hdid])
          subst hd_eq
          exact docInv_stopDirect (h.docs d' hd') hlive
        · intro e he heq
          exact hin (heq ▸ List.mem_map.mpr ⟨e, he, rfl⟩)
    · rw [if_neg hlive]
      exact h

/-- If a registry entry existed for the id of a stopped (or otherwise
non-pending/non-running) document, its registered document would be
pending/running, contradicting id uniqueness. -/
lemma no_entry_of_not_live {s : SystemState} (h : StateInv s) {d : TaskDoc}
    (hdmem : d ∈ s.store)
    (hnot : ¬(d.status = TaskStatus.pending ∨ d.status = TaskStatus.running)) :
    ∀ e ∈ s.registry, e.task_id ≠ d.id := by
  intro e he heq
  obtain ⟨-, d2, hd2, hd2id, hpend, hrun⟩ := h.reg_docs e he
  have hd_eq : d2 = d := eq_of_mem_of_same_id h.ids_unique hd2 hdmem (by rw [hd2id, heq])
  subst hd_eq
  by_cases h0 : e.pos = 0
  · exact hnot (Or.inl (hpend h0))
  · exact hnot (Or.inr (hrun h0))

lemma stateInv_restart {s : SystemState} (h : StateInv s) (tid uid : Nat) :
    StateInv (restart_task s tid uid).1 := by
  rcases hm : get_task s tid uid with _ | d
  · simp only [restart_task, hm]
    exact h
  · obtain ⟨hdmem, hdid, hduid⟩ := owner_found hm
    simp only [restart_task, hm]
    by_cases hst : d.status = TaskStatus.stopped
    · rw [if_pos hst]
      have hnot : ¬(d.status = TaskStatus.pending ∨ d.status = TaskStatus.running) := by
        rintro (hq | hq) <;> rw [hst] at hq <;> cases hq
      have h1 : StateInv (update_task s tid deleteUpdate).1 := by
        apply stateInv_write_noreg h tid deleteUpdate
        · intro d' hd' hdid'
          have hd_eq : d' = d := eq_of_mem_of_same_id h.ids_unique hd' hdmem
            (by rw [hdid', hdid])
          subst hd_eq
          exact docInv_deleted (h.docs d' hd') hnot
        · intro e he
          rw [← hdid]
          exact no_entry_of_not_live h hdmem hnot e he
      exact stateInv_create h1 _
    · rw [if_neg hst]
      exact h

lemma stateInv_delete {s : SystemState} (h : StateInv s) (tid uid : Nat) :
    StateInv (delete_task s tid uid).1 := by
  rcases hm : get_task s tid uid with _ | d
  · simp only [delete_task, hm]
    exact h
  · obtain ⟨hdmem, hdid, hduid⟩ := owner_found hm
    simp only [delete_task, hm]
    by_cases hlive : d.status = TaskStatus.pending ∨ d.status = TaskStatus.running
    · rw [if_pos hlive]
      exact h
    · rw [if_neg hlive]
      apply stateInv_write_noreg h tid deleteUpdate
      · intro d' hd' hdid'
        have hd_eq : d' = d := eq_of_mem_of_same_id h.ids_unique hd' hdmem
          (by rw [hdid', hdid])
        subst hd_eq
        exact docInv_deleted (h.docs d' hd') hlive
      · intro e he
        rw [← hdid]
        exact no_entry_of_not_live h hdmem hlive e he

lemma stateInv_step {s s' : SystemState} (h : StateInv s) (hst : Step s s') :
    StateInv s' := by
  cases hst with
  | create c => exact stateInv_create h c
  | advance e he hp => exact stateInv_advance h e he hp
  | succeed e he hp r => exact stateInv_succeed h e he r
  | fail e he msg => exact stateInv_fail h e he msg
  | stop tid uid => exact stateInv_stop h tid uid
  | restart tid uid => exact stateInv_restart h tid uid
  | del tid uid => exact stateInv_delete h tid uid

lemma stateInv_init :
    StateInv { store := [], registry := [], nextId := 0, clock := 0 } := by
  refine ⟨?_, ?_, ?_, ?_⟩ <;> simp

/-- Every reachable state satisfies the invariant. -/
lemma stateInv_reachable {s : SystemState} (h : Reachable s) : StateInv s := by
  induction h with
  | init => exact stateInv_init
  | step _ hst ih => exact stateInv_step ih hst

lemma completed_at_applyUpdate_not_stamp {d : TaskDoc} {u : TaskUpdateRec} {now : Nat}
    (h : ¬(u.status = some TaskStatus.completed ∨ u.status = some TaskStatus.failed)) :
    (applyUpdate d u now).completed_at = d.completed_at := by
  simp [applyUpdate, h]

/-- An already-set completed_at survives a store update, provided any
COMPLETED/FAILED stamp only ever targets documents whose completed_at is still
unset. -/
lemma stable_updateStore {store : List TaskDoc}
    (hids : store.Pairwise (fun a b => a.id ≠ b.id)) (tid : Nat) (u : TaskUpdateRec)
    (now : Nat)
    (hstamp : (u.status = some TaskStatus.completed ∨ u.status = some TaskStatus.failed) →
      ∀ d ∈ store, d.id = tid → d.completed_at = none) :
    ∀ d ∈ store, ∀ d' ∈ updateStore store tid u now, d'.id = d.id →
      d.completed_at.isSome = true → d'.completed_at = d.completed_at := by
  intro d hd d' hd' hid hsome
  rcases List.mem_map.mp hd' with ⟨dd, hdd, rfl⟩
  by_cases hddid : dd.id = tid
  · rw [if_pos hddid] at hid ⊢
    rw [applyUpdate_id] at hid
    have hdd_eq : dd = d := eq_of_mem_of_same_id hids hdd hd hid
    subst hdd_eq
    by_cases hstatus :
        u.status = some TaskStatus.completed ∨ u.status = some TaskStatus.failed
    · rw [hstamp hstatus dd hdd hddid] at hsome
      cases hsome
    · exact completed_at_applyUpdate_not_stamp hstatus
  · rw [if_neg hddid] at hid ⊢
    rw [eq_of_mem_of_same_id hids hdd hd hid]

lemma stable_same {store : List TaskDoc}
    (hids : store.Pairwise (fun a b => a.id ≠ b.id)) :
    ∀ d ∈ store, ∀ d' ∈ store, d'.id = d.id →
      d.completed_at.isSome = true → d'.completed_at = d.completed_at := by
  intro d hd d' hd' hid _
  rw [eq_of_mem_of_same_id hids hd' hd hid]

/-- Once stamped, completed_at never changes across any further step. -/
lemma completed_at_stable {s s' : SystemState} (h : StateInv s) (hst : Step s s') :
    ∀ d ∈ s.store, ∀ d' ∈ s'.store, d'.id = d.id →
      d.completed_at.isSome = true → d'.completed_at = d.completed_at := by
  have happend : ∀ (l : List TaskDoc) (c : TaskCreateRec) (nid now : Nat),
      (∀ d ∈ s.store, ∀ d' ∈ l, d'.id = d.id →
        d.completed_at.isSome = true → d'.completed_at = d.completed_at) →
      (∀ d ∈ s.store, d.id < nid) →
      ∀ d ∈ s.store, ∀ d' ∈ l ++ [newDoc c nid now], d'.id = d.id →
        d.completed_at.isSome = true → d'.completed_at = d.completed_at := by
    intro l c nid now hl hlt d hd d' hd' hid hsome
    rcases List.mem_append.mp hd' with hold | hnew
    · exact hl d hd d' hold hid hsome
    · rw [List.mem_singleton] at hnew
      subst hnew
      have : (newDoc c nid now).id = nid := rfl
      rw [this] at hid
      exact absurd hid.symm (Nat.ne_of_lt (hlt d hd))
  cases hst with
  | create c =>
    refine happend s.store c s.nextId s.clock (stable_same h.ids_unique)
      (fun d hd => (h.docs d hd).id_lt)
  | advance e he hp =>
    refine stable_updateStore h.ids_unique e.task_id (execUpdate e.ty e.pos) s.clock ?_
    intro hstatus
    by_cases h0 : e.pos = 0 <;> simp [execUpdate, h0] at hstatus
  | succeed e he hp r =>
    obtain ⟨-, de, hde, hdeid, hpend, hrun⟩ := h.reg_docs e he
    refine stable_updateStore h.ids_unique e.task_id (completedUpdate r) s.clock ?_
    intro _ d hd hdid
    have hd_eq : d = de := eq_of_mem_of_same_id h.ids_unique hd hde (by rw [hdid, hdeid])
    subst hd_eq
    by_cases h0 : e.pos = 0
    · exact ((h.docs d hd).live_clean (Or.inl (hpend h0))).2.2
    · exact ((h.docs d hd).live_clean (Or.inr (hrun h0))).2.2
  | fail e he msg =>
    obtain ⟨-, de, hde, hdeid, hpend, hrun⟩ := h.reg_docs e he
    refine stable_updateStore h.ids_unique e.task_id (failedUpdate msg) s.clock ?_
    intro _ d hd hdid
    have hd_eq : d = de := eq_of_mem_of_same_id h.ids_unique hd hde (by rw [hdid, hdeid])
    subst hd_eq
    by_cases h0 : e.pos = 0
    · exact ((h.docs d hd).live_clean (Or.inl (hpend h0))).2.2
    · exact ((h.docs d hd).live_clean (Or.inr (hrun h0))).2.2
  | stop tid uid =>
    rcases hm : get_task s tid uid with _ | d
    · simp only [stop_task, hm]
      exact stable_same h.ids_unique
    · simp only [stop_task, hm]
      by_cases hlive : d.status = TaskStatus.pending ∨ d.status = TaskStatus.running
      · rw [if_pos hlive]
        by_cases hin : tid ∈ registryIds s
        · rw [if_pos hin]
          refine stable_updateStore h.ids_unique tid cancelledUpdate s.clock ?_
          intro hstatus
          simp [cancelledUpdate] at hstatus
        · rw [if_neg hin]
          refine stable_updateStore h.ids_unique tid stopDirectUpdate s.clock ?_
          intro hstatus
          simp [stopDirectUpdate] at hstatus
      · rw [if_neg hlive]
        exact stable_same h.ids_unique
  | restart tid uid =>
    rcases hm : get_task s tid uid with _ | d
    · simp only [restart_task, hm]
      exact stable_same h.ids_unique
    · simp only [restart_task, hm]
      by_cases hst' : d.status = TaskStatus.stopped
      · rw [if_pos hst']
        refine happend _ _ _ _ ?_ (fun d0 hd0 => (h.docs d0 hd0).id_lt)
        refine stable_updateStore h.ids_unique tid deleteUpdate s.clock ?_
        intro hstatus
        simp [deleteUpdate] at hstatus
      · rw [if_neg hst']
        exact stable_same h.ids_unique
  | del tid uid =>
    rcases hm : get_task s tid uid with _ | d
    · simp only [delete_task, hm]
      exact stable_same h.ids_unique
    · simp only [delete_task, hm]
      by_cases hlive : d.status = TaskStatus.pending ∨ d.status = TaskStatus.running
      · rw [if_pos hlive]
        exact stable_same h.ids_unique
      · rw [if_neg hlive]
        refine stable_updateStore h.ids_unique tid deleteUpdate s.clock ?_
        intro hstatus
        simp [deleteUpdate] at hstatus

lemma reach_exState0 : Reachable exState0 := Reachable.init

lemma reach_exState1 : Reachable exState1 :=
  Reachable.step reach_exState0 (Step.create c1Create)

lemma reach_exState2 : Reachable exState2 :=
  Reachable.step reach_exState1 (Step.stop 0 7)

lemma reach_exState3 : Reachable exState3 :=
  Reachable.step reach_exState2 (Step.del 0 7)

/-- Claim C1: "For every expand_node task whose input references a node id
absent from the caller-supplied current-node list, the task reaches terminal
status 'failed' with a non-empty error_message and no result." The source
contradicts this: LLMService.expand_node raises ValueError("Node not found")
inside the same try-block whose catch-all `except Exception` returns
{"nodes": [], "edges": []}, so _execute_expand_node returns normally and
_execute_task persists status COMPLETED with progress 100, that empty result,
and no error_message. This theorem evaluates the embedded pipeline at such an
input (target id "missing", context containing only "n1"). -/
theorem C1_missing_target_completes_with_empty_result :
    c1Nodes.find? (fun n => n.id == c1Request.node_id) = none ∧
    c1FinalDoc.status = TaskStatus.completed ∧
    c1FinalDoc.progress = 100 ∧
    c1FinalDoc.result = some (TaskResult.expansion [] []) ∧
    c1FinalDoc.error_message = none := by
  decide

/-- Executable non-decreasing test used to decide Chain' goals. -/
def nonDecreasing : List Nat → Bool
  | [] => true
  | [_] => true
  | a :: b :: rest => a ≤ b && nonDecreasing (b :: rest)

lemma nonDecreasing_iff_chain' (l : List Nat) :
    nonDecreasing l = true ↔ List.Chain' (· ≤ ·) l := by
  induction l with
  | nil => simp [nonDecreasing]
  | cons a l ih =>
    cases l with
    | nil => simp [nonDecreasing]
    | cons b rest =>
      simp [nonDecreasing, List.chain'_cons, ← ih, and_comm]

/-- The progress values of the first `m` non-terminal updates (m within the
attempt's update count): 10 followed by the first checkpoints. -/
lemma progressOfFirstUpdates (ty : TaskType) (m : Nat) (hm : m ≤ numUpdates ty) :
    ((List.range m).map (execUpdate ty)).filterMap (fun u => u.progress)
      = (10 :: checkpoints ty).take m := by
  cases ty <;> norm_num [numUpdates, checkpoints] at hm <;> interval_cases m <;> rfl

/-- Shape of the persisted progress values when the terminal write resets
progress to 0 (FAILED and STOPPED-by-cancellation writes). -/
lemma reset_profile (ty : TaskType) (m : Nat) (hm : m ≤ numUpdates ty)
    (u : TaskUpdateRec) (hu : u.progress = some 0) :
    List.Chain' (· ≤ ·)
      (0 :: ((List.range m).map (execUpdate ty) ++ [u]).filterMap
        (fun x => x.progress)).dropLast ∧
    (0 :: ((List.range m).map (execUpdate ty) ++ [u]).filterMap
      (fun x => x.progress)).getLast? = some 0 := by
  rw [List.filterMap_append, progressOfFirstUpdates ty m hm]
  have hlast : List.filterMap (fun x => x.progress) [u] = [0] := by
    simp [List.filterMap_cons, hu]
  rw [hlast, ← List.cons_append]
  constructor
  · rw [List.dropLast_concat]
    have hch : List.Chain' (· ≤ ·) (0 :: 10 :: checkpoints ty) := by
      rw [← nonDecreasing_iff_chain']
      cases ty <;> rfl
    refine List.Chain'.prefix hch ⟨(10 :: checkpoints ty).drop m, ?_⟩
    rw [List.cons_append, List.take_append_drop]
  · rw [List.getLast?_concat]

lemma persistedProgress_success (ty : TaskType) (r : TaskResult) :
    persistedProgress ty (ExecOutcome.success r)
      = (0 :: 10 :: checkpoints ty) ++ [100] := by
  cases ty <;> rfl

/-- Counterexample to claim C2 as stated: in a failing execution the persisted
progress sequence is 0, 10, 30, 0 - not non-decreasing, because the FAILED
terminal write resets progress to 0. -/
theorem C2_counterexample_not_monotone :
    ¬ List.Chain' (· ≤ ·)
      (persistedProgress TaskType.expand_node (ExecOutcome.failure 2 "boom")) := by
  rw [← nonDecreasing_iff_chain']
  decide

/-- Claim C2 (amended): within a single execution attempt the persisted
progress values are non-decreasing through the checkpoints and terminate at
100 when the task completes; when the attempt fails or is cancelled, every
write before the terminal one is non-decreasing but the terminal write resets
progress to 0 (hence stays below 100). -/
theorem C2_execution_progress_profile (ty : TaskType) (o : ExecOutcome) :
    (∀ r, o = ExecOutcome.success r →
      List.Chain' (· ≤ ·) (persistedProgress ty o) ∧
        (persistedProgress ty o).getLast? = some 100) ∧
    (∀ k msg, o = ExecOutcome.failure k msg →
      List.Chain' (· ≤ ·) (persistedProgress ty o).dropLast ∧
        (persistedProgress ty o).getLast? = some 0) ∧
    (∀ k, o = ExecOutcome.cancelled k →
      List.Chain' (· ≤ ·) (persistedProgress ty o).dropLast ∧
        (persistedProgress ty o).getLast? = some 0) := by
  refine ⟨?_, ?_, ?_⟩
  · rintro r rfl
    rw [persistedProgress_success]
    constructor
    · rw [← nonDecreasing_iff_chain']
      cases ty <;> rfl
    · rw [List.getLast?_concat]
  · rintro k msg rfl
    simp only [persistedProgress, execTrace]
    exact reset_profile ty _ (Nat.min_le_right _ _) _ rfl
  · rintro k rfl
    simp only [persistedProgress, execTrace]
    exact reset_profile ty _ (Nat.min_le_right _ _) _ rfl

/-- Witness for C2's amended theorem at a concrete failing execution. -/
theorem C2_witness :
    List.Chain' (· ≤ ·)
      (persistedProgress TaskType.expand_node (ExecOutcome.failure 2 "boom")).dropLast ∧
    (persistedProgress TaskType.expand_node
      (ExecOutcome.failure 2 "boom")).getLast? = some 0 :=
  (C2_execution_progress_profile TaskType.expand_node
    (ExecOutcome.failure 2 "boom")).2.1 2 "boom" rfl

/-- Counterexample to claim C3 as stated: stopping a pending task (create then
stop_task, whose cancellation handler persists STOPPED) leaves completed_at
unset - the transition into the terminal state 'stopped' does NOT stamp
completed_at, because update_task stamps it only for COMPLETED and FAILED. -/
theorem C3_counterexample_stopped_unstamped :
    get_task exState2 0 7 = some exDoc2 ∧
    exDoc2.status = TaskStatus.stopped ∧
    exDoc2.completed_at = none := by
  decide

/-- Claim C3 (amended): completed_at is set exactly once, at the first
transition into COMPLETED or FAILED - it is set iff the status is one of
those two, a STOPPED task never has it set, and once set it is never changed
by any further step. -/
theorem C3_completed_at_stamped_once (s : SystemState) (hs : Reachable s) :
    (∀ d ∈ s.store,
      ((d.status = TaskStatus.completed ∨ d.status = TaskStatus.failed) ↔
        d.completed_at.isSome = true) ∧
      (d.status = TaskStatus.stopped → d.completed_at = none)) ∧
    (∀ s', Step s s' → ∀ d ∈ s.store, ∀ d' ∈ s'.store, d'.id = d.id →
      d.completed_at.isSome = true → d'.completed_at = d.completed_at) := by
  have h := stateInv_reachable hs
  refine ⟨fun d hd => ⟨(h.docs d hd).completed_at_iff, (h.docs d hd).stopped_no_stamp⟩, ?_⟩
  intro s' hst
  exact completed_at_stable h hst

/-- Witness for C3's amended theorem: the concrete reachable stopped document
has no completed_at stamp. -/
theorem C3_witness : exDoc2.completed_at = none :=
  ((C3_completed_at_stamped_once exState2 reach_exState2).1 exDoc2 (by decide)).2
    (by decide)

/-- Claim C7: get_task is owner-scoped: whenever no stored document carries
both the requested id and the caller's identity - be it because the id is
absent altogether or because it belongs to another owner - the lookup returns
none, with no observable distinction between the two cases. -/
theorem C7_owner_isolation (s : SystemState) (tid uid : Nat)
    (h : ∀ d ∈ s.store, d.id = tid → d.user_id ≠ uid) :
    get_task s tid uid = none := by
  apply List.find?_eq_none.mpr
  intro d hd
  simp only [Bool.and_eq_true, beq_iff_eq, not_and]
  intro hid
  exact h d hd hid

/-- Witness for C7: owner 9 cannot see owner 7's task 0, exactly as a missing
id. -/
theorem C7_witness :
    get_task exState1 0 9 = none ∧ get_task exState1 5 9 = none :=
  ⟨C7_owner_isolation exState1 0 9 (by decide),
   C7_owner_isolation exState1 5 9 (by decide)⟩

lemma not_mem_registryIds_deregister (s : SystemState) (tid : Nat) :
    tid ∉ registryIds (deregister s tid) := by
  intro hmem
  rcases List.mem_map.mp hmem with ⟨e, he, heq⟩
  obtain ⟨-, hne⟩ := List.mem_filter.mp he
  have hne2 : e.task_id ≠ tid := by simpa using hne
  exact hne2 heq

lemma applyUpdate_deleteUpdate (d : TaskDoc) (now : Nat) :
    applyUpdate d deleteUpdate now = { d with deleted := true, updated_at := now } :=
  rfl

/-- Claim C4: stop_task returns false exactly when the task is absent, owned
by someone else, or already terminal; on success it leaves the task STOPPED
(cancelling and awaiting the live registry entry when one exists, else forcing
the persisted status) with no registry entry remaining, and a second stop of
the same task returns false. -/
theorem C4_stop_semantics (s : SystemState) (hs : Reachable s) (tid uid : Nat) :
    ((stop_task s tid uid).2 = false ↔
      get_task s tid uid = none ∨
        ∃ d, get_task s tid uid = some d ∧
          (d.status = TaskStatus.completed ∨ d.status = TaskStatus.failed ∨
            d.status = TaskStatus.stopped)) ∧
    ((stop_task s tid uid).2 = true →
      ∃ d', get_task (stop_task s tid uid).1 tid uid = some d' ∧
        d'.status = TaskStatus.stopped ∧
        tid ∉ registryIds (stop_task s tid uid).1) ∧
    ((stop_task s tid uid).2 = true →
      (stop_task (stop_task s tid uid).1 tid uid).2 = false) := by
  have h := stateInv_reachable hs
  rcases hm : get_task s tid uid with _ | d
  · simp only [stop_task, hm]
    refine ⟨?_, ?_, ?_⟩
    · simp
    · intro htt
      simp at htt
    · intro htt
      simp at htt
  · obtain ⟨hdmem, hdid, hduid⟩ := owner_found hm
    have hnr : d.status ≠ TaskStatus.restarting := (h.docs d hdmem).not_restarting
    simp only [stop_task, hm]
    by_cases hlive : d.status = TaskStatus.pending ∨ d.status = TaskStatus.running
    · rw [if_pos hlive]
      have hterm_false : ¬(d.status = TaskStatus.completed ∨
          d.status = TaskStatus.failed ∨ d.status = TaskStatus.stopped) := by
        rcases hlive with hq | hq <;> rw [hq] <;> simp
      by_cases hin : tid ∈ registryIds s
      · rw [if_pos hin]
        have hafter :
            get_task (deregister (update_task s tid cancelledUpdate).1 tid) tid uid
              = some (applyUpdate d cancelledUpdate s.clock) := by
          show get_task (update_task s tid cancelledUpdate).1 tid uid = _
          rw [get_task_update, hm]
          simp [hdid]
        refine ⟨?_, ?_, ?_⟩
        · simp only [hm]
          constructor
          · intro hff
            simp at hff
          · rintro (hnone | ⟨d', hd'eq, hterm⟩)
            · simp at hnone
            · rw [Option.some_inj] at hd'eq
              subst hd'eq
              exact absurd hterm hterm_false
        · intro _
          refine ⟨applyUpdate d cancelledUpdate s.clock, hafter, ?_, ?_⟩
          · simp [applyUpdate, cancelledUpdate]
          · exact not_mem_registryIds_deregister _ tid
        · intro _
          simp only [stop_task, hafter]
          rw [if_neg (by simp [applyUpdate, cancelledUpdate])]
      · rw [if_neg hin]
        have hafter : get_task (update_task s tid stopDirectUpdate).1 tid uid
            = some (applyUpdate d stopDirectUpdate s.clock) := by
          rw [get_task_update, hm]
          simp [hdid]
        refine ⟨?_, ?_, ?_⟩
        · simp only [hm]
          constructor
          · intro hff
            simp at hff
          · rintro (hnone | ⟨d', hd'eq, hterm⟩)
            · simp at hnone
            · rw [Option.some_inj] at hd'eq
              subst hd'eq
              exact absurd hterm hterm_false
        · intro _
          refine ⟨applyUpdate d stopDirectUpdate s.clock, hafter, ?_, ?_⟩
          · simp [applyUpdate, stopDirectUpdate]
          · exact hin
        · intro _
          simp only [stop_task, hafter]
          rw [if_neg (by simp [applyUpdate, stopDirectUpdate])]
    · rw [if_neg hlive]
      refine ⟨?_, ?_, ?_⟩
      · simp only [hm]
        constructor
        · intro _
          refine Or.inr ⟨d, rfl, ?_⟩
          cases hstat : d.status <;> simp [hstat] at hlive hnr ⊢
        · intro _
          trivial
      · intro htt
        simp at htt
      · intro htt
        simp at htt

/-- Witness for C4: stopping the freshly created task succeeds, and a second
stop on the same task returns false. -/
theorem C4_witness :
    (stop_task (stop_task exState1 0 7).1 0 7).2 = false :=
  (C4_stop_semantics exState1 reach_exState1 0 7).2.2 (by decide)

/-- get_task over a freshly created store: first the old store, then the new
document. -/
lemma get_task_create (s : SystemState) (c : TaskCreateRec) (tid uid : Nat) :
    get_task (create_task s c).1 tid uid
      = (get_task s tid uid).or
          (if s.nextId = tid ∧ c.user_id = uid then
            some (newDoc c s.nextId s.clock) else none) := by
  show (s.store ++ [newDoc c s.nextId s.clock]).find? _ = _
  rw [List.find?_append]
  congr 1
  rw [List.find?_singleton]
  by_cases h1 : s.nextId = tid <;> by_cases h2 : c.user_id = uid <;>
    simp [newDoc, h1, h2]

/-- Counterexample to claim C5 as stated: restarting the stopped task 0 sets
deleted=true on the original but also changes another field - updated_at
moves from 1 to 2 - so "without changing its status or other fields" fails. -/
theorem C5_counterexample_updated_at_changes :
    (get_task exState2 0 7).map (fun d => d.updated_at) = some 1 ∧
    (get_task (restart_task exState2 0 7).1 0 7).map (fun d => d.updated_at)
      = some 2 ∧
    (get_task (restart_task exState2 0 7).1 0 7).map (fun d => d.deleted)
      = some true := by
  decide

/-- Claim C5 (amended): restart_task fails unless the task's status is exactly
'stopped'; on success it returns a fresh id (unused by any stored document),
marks the original deleted=true - changing nothing else except refreshing
updated_at - and creates a brand-new pending task cloning kind, input_data,
title, description and the capability flags, with progress 0 and no
result/error_message. -/
theorem C5_restart_semantics (s : SystemState) (hs : Reachable s) (tid uid : Nat) :
    (get_task s tid uid = none → (restart_task s tid uid).2 = none) ∧
    (∀ d, get_task s tid uid = some d → d.status ≠ TaskStatus.stopped →
      (restart_task s tid uid).2 = none) ∧
    (∀ d, get_task s tid uid = some d → d.status = TaskStatus.stopped →
      (restart_task s tid uid).2 = some s.nextId ∧
      (∀ d0 ∈ s.store, d0.id ≠ s.nextId) ∧
      get_task (restart_task s tid uid).1 tid uid
        = some { d with deleted := true, updated_at := s.clock } ∧
      (∃ nd, get_task (restart_task s tid uid).1 s.nextId uid = some nd ∧
        nd.task_type = d.task_type ∧ nd.input_data = d.input_data ∧
        nd.title = d.title ∧ nd.description = d.description ∧
        nd.is_stoppable = d.is_stoppable ∧ nd.is_restartable = d.is_restartable ∧
        nd.status = TaskStatus.pending ∧ nd.progress = 0 ∧ nd.result = none ∧
        nd.error_message = none)) := by
  have h := stateInv_reachable hs
  refine ⟨?_, ?_, ?_⟩
  · intro hm
    simp only [restart_task, hm]
  · intro d hm hst
    simp only [restart_task, hm]
    rw [if_neg hst]
  · intro d hm hst
    obtain ⟨hdmem, hdid, hduid⟩ := owner_found hm
    have hfresh : ∀ d0 ∈ s.store, d0.id ≠ s.nextId :=
      fun d0 hd0 => Nat.ne_of_lt (h.docs d0 hd0).id_lt
    have hupd : get_task (update_task s tid deleteUpdate).1 tid uid
        = some (applyUpdate d deleteUpdate s.clock) := by
      rw [get_task_update, hm]
      simp [hdid]
    have hmiss : get_task (update_task s tid deleteUpdate).1 s.nextId uid = none := by
      rw [get_task_update]
      have : get_task s s.nextId uid = none := by
        apply List.find?_eq_none.mpr
        intro d0 hd0
        simp only [Bool.and_eq_true, beq_iff_eq, not_and]
        intro hid0
        exact absurd hid0 (hfresh d0 hd0)
      rw [this]
      rfl
    simp only [restart_task, hm]
    rw [if_pos hst]
    refine ⟨rfl, hfresh, ?_, ?_⟩
    · show get_task (create_task (update_task s tid deleteUpdate).1
        (cloneCreate d uid)).1 tid uid = _
      rw [get_task_create, hupd, applyUpdate_deleteUpdate]
      rfl
    · refine ⟨newDoc (cloneCreate d uid) s.nextId (s.clock + 1), ?_, rfl, rfl, rfl,
        rfl, rfl, rfl, rfl, rfl, rfl, rfl⟩
      show get_task (create_task (update_task s tid deleteUpdate).1
        (cloneCreate d uid)).1 s.nextId uid = _
      rw [get_task_create, hmiss, Option.none_or]
      rw [if_pos ⟨rfl, rfl⟩]
      rfl

/-- Witness for C5: restarting the concrete stopped task yields the fresh id 1. -/
theorem C5_witness :
    (restart_task exState2 0 7).2 = some exState2.nextId :=
  ((C5_restart_semantics exState2 reach_exState2 0 7).2.2 exDoc2 (by decide)
    (by decide)).1

/-- Claim C6: delete_task refuses (returns false and changes nothing) while
the task is pending or running - whose deleted flag is then still false - and
in every other owner-visible case marks deleted=true and returns true; it
never physically removes a record (the stored ids are unchanged). -/
theorem C6_delete_semantics (s : SystemState) (hs : Reachable s) (tid uid : Nat)
    (d : TaskDoc) (hm : get_task s tid uid = some d) :
    ((d.status = TaskStatus.pending ∨ d.status = TaskStatus.running) →
      (delete_task s tid uid).2 = false ∧ (delete_task s tid uid).1 = s ∧
        d.deleted = false) ∧
    (¬(d.status = TaskStatus.pending ∨ d.status = TaskStatus.running) →
      (delete_task s tid uid).2 = true ∧
      get_task (delete_task s tid uid).1 tid uid
        = some { d with deleted := true, updated_at := s.clock }) ∧
    (delete_task s tid uid).1.store.map (fun x => x.id)
      = s.store.map (fun x => x.id) := by
  have h := stateInv_reachable hs
  obtain ⟨hdmem, hdid, hduid⟩ := owner_found hm
  refine ⟨?_, ?_, ?_⟩
  · intro hlive
    simp only [delete_task, hm]
    rw [if_pos hlive]
    exact ⟨rfl, rfl, ((h.docs d hdmem).live_clean hlive).2.1⟩
  · intro hlive
    simp only [delete_task, hm]
    rw [if_neg hlive]
    constructor
    · apply List.any_eq_true.mpr
      refine ⟨d, hdmem, ?_⟩
      simp only [Bool.and_eq_true, beq_iff_eq, decide_eq_true_eq]
      refine ⟨hdid, ?_⟩
      intro heq
      have hup := congrArg TaskDoc.updated_at heq
      have hlt := (h.docs d hdmem).updated_lt
      rw [applyUpdate_deleteUpdate] at hup
      simp at hup
      omega
    · rw [get_task_update, hm]
      simp [hdid, applyUpdate_deleteUpdate]
  · simp only [delete_task, hm]
    by_cases hlive : d.status = TaskStatus.pending ∨ d.status = TaskStatus.running
    · rw [if_pos hlive]
    · rw [if_neg hlive]
      show (updateStore s.store tid deleteUpdate s.clock).map _ = _
      rw [updateStore, List.map_map]
      apply List.map_congr_left
      intro a _
      by_cases ha : a.id = tid <;> simp [ha, applyUpdate_id]

/-- Witness for C6: deleting the concrete stopped task succeeds and marks it
deleted. -/
theorem C6_witness :
    (delete_task exState2 0 7).2 = true ∧
    get_task (delete_task exState2 0 7).1 0 7
      = some { exDoc2 with deleted := true, updated_at := exState2.clock } :=
  (C6_delete_semantics exState2 reach_exState2 0 7 exDoc2 (by decide)).2.1
    (by decide)

/-- Claim C8: every persisted task document of every reachable state satisfies
the invariant: progress within [0,100] (progress is a Nat, so 0 ≤ progress
holds by type), COMPLETED implies progress = 100, and FAILED/STOPPED imply the
result is absent; by induction this is preserved by every operation that
writes task state. -/
theorem C8_store_invariant (s : SystemState) (hs : Reachable s) :
    ∀ d ∈ s.store, d.progress ≤ 100 ∧
      (d.status = TaskStatus.completed → d.progress = 100) ∧
      ((d.status = TaskStatus.failed ∨ d.status = TaskStatus.stopped) →
        d.result = none) := by
  have h := stateInv_reachable hs
  exact fun d hd => ⟨(h.docs d hd).progress_le, (h.docs d hd).completed_progress,
    (h.docs d hd).terminal_no_result⟩

/-- Witness for C8 at the concrete reachable stopped document. -/
theorem C8_witness :
    exDoc2.progress ≤ 100 ∧
    (exDoc2.status = TaskStatus.completed → exDoc2.progress = 100) ∧
    ((exDoc2.status = TaskStatus.failed ∨ exDoc2.status = TaskStatus.stopped) →
      exDoc2.result = none) :=
  C8_store_invariant exState2 reach_exState2 exDoc2 (by decide)

/-- Claim C9: whenever a task has reached any terminal outcome - normal
completion, a raised exception, or cancellation - its id is no longer present
in the in-process running_tasks registry: the finally-block deregistration
runs on every exit path, so no reachable state holds a registry entry for a
terminal task. -/
theorem C9_registry_cleanup (s : SystemState) (hs : Reachable s) :
    ∀ d ∈ s.store,
      (d.status = TaskStatus.completed ∨ d.status = TaskStatus.failed ∨
        d.status = TaskStatus.stopped) →
      d.id ∉ registryIds s := by
  have h := stateInv_reachable hs
  intro d hd hterm hmem
  rcases List.mem_map.mp hmem with ⟨e, he, heq⟩
  obtain ⟨-, d2, hd2, hd2id, hpend, hrun⟩ := h.reg_docs e he
  have hd_eq : d2 = d := eq_of_mem_of_same_id h.ids_unique hd2 hd (by rw [hd2id, heq])
  subst hd_eq
  by_cases h0 : e.pos = 0
  · have hst := hpend h0
    rcases hterm with ht | ht | ht <;> rw [hst] at ht <;> simp at ht
  · have hst := hrun h0
    rcases hterm with ht | ht | ht <;> rw [hst] at ht <;> simp at ht

/-- Witness for C9: the concrete stopped task's id is not registered. -/
theorem C9_witness : exDoc2.id ∉ registryIds exState2 :=
  C9_registry_cleanup exState2 reach_exState2 exDoc2 (by decide) (by decide)

lemma mem_insertByCreatedDesc {x d : TaskDoc} {l : List TaskDoc} :
    x ∈ insertByCreatedDesc d l ↔ x = d ∨ x ∈ l := by
  induction l with
  | nil => simp [insertByCreatedDesc]
  | cons y ys ih =>
    simp only [insertByCreatedDesc]
    split
    · simp [List.mem_cons]
    · simp [ih, List.mem_cons]
      tauto

lemma mem_sortByCreatedDesc {x : TaskDoc} {l : List TaskDoc} :
    x ∈ sortByCreatedDesc l ↔ x ∈ l := by
  induction l with
  | nil => simp [sortByCreatedDesc]
  | cons y ys ih =>
    rw [show sortByCreatedDesc (y :: ys) = insertByCreatedDesc y (sortByCreatedDesc ys)
      from rfl, mem_insertByCreatedDesc]
    simp [ih]

/-- A store member with matching id and owner is what get_task returns. -/
lemma get_task_of_mem {s : SystemState} (h : StateInv s) {d : TaskDoc}
    (hd : d ∈ s.store) : get_task s d.id d.user_id = some d := by
  have hsome : (get_task s d.id d.user_id).isSome = true :=
    List.find?_isSome.mpr ⟨d, hd, by simp⟩
  rcases Option.isSome_iff_exists.mp hsome with ⟨x, hx⟩
  have hxmem := List.mem_of_find?_eq_some hx
  have hxp := List.find?_some hx
  simp only [Bool.and_eq_true, beq_iff_eq] at hxp
  rw [hx, eq_of_mem_of_same_id h.ids_unique hxmem hd hxp.1]

/-- Claim C10: logical deletion only affects listing: a deleted task is still
returned by get_task, a deleted stopped task can still be restarted and
deleted again, and only get_user_tasks excludes it. -/
theorem C10_deleted_only_affects_listing (s : SystemState) (hs : Reachable s)
    (uid : Nat) (d : TaskDoc) (hd : d ∈ s.store) (hduid : d.user_id = uid)
    (hdel : d.deleted = true) :
    get_task s d.id uid = some d ∧
    (d.status = TaskStatus.stopped →
      (restart_task s d.id uid).2 = some s.nextId ∧
      (delete_task s d.id uid).2 = true) ∧
    (∀ limit, d ∉ get_user_tasks s uid limit) := by
  have h := stateInv_reachable hs
  have hget : get_task s d.id uid = some d := by
    rw [← hduid]
    exact get_task_of_mem h hd
  refine ⟨hget, ?_, ?_⟩
  · intro hst
    constructor
    · simp only [restart_task, hget]
      rw [if_pos hst]
      rfl
    · have hnotlive : ¬(d.status = TaskStatus.pending ∨
          d.status = TaskStatus.running) := by
        rw [hst]
        simp
      simp only [delete_task, hget]
      rw [if_neg hnotlive]
      apply List.any_eq_true.mpr
      refine ⟨d, hd, ?_⟩
      simp only [Bool.and_eq_true, beq_iff_eq, decide_eq_true_eq]
      refine ⟨trivial, ?_⟩
      intro heq
      have hup := congrArg TaskDoc.updated_at heq
      have hlt := (h.docs d hd).updated_lt
      rw [applyUpdate_deleteUpdate] at hup
      simp at hup
      omega
  · intro limit hmem
    have hsorted := List.take_subset limit _ hmem
    have hfil := mem_sortByCreatedDesc.mp hsorted
    have := (List.mem_filter.mp hfil).2
    simp [hdel] at this

/-- Witness for C10 at the concrete deleted stopped task. -/
theorem C10_witness :
    get_task exState3 exDoc3.id 7 = some exDoc3 ∧
    (restart_task exState3 exDoc3.id 7).2 = some exState3.nextId := by
  have hc := C10_deleted_only_affects_listing exState3 reach_exState3 7 exDoc3
    (by decide) (by decide) (by decide)
  exact ⟨hc.1, (hc.2.1 (by decide)).1⟩

end DeepBrain

